import Mathlib

/-!
# Verification of the JsonToSqlite import pipeline

Shallow embedding of the JSON-to-SQLite import scripts
(`json-to-sqlite-dynamic.js` and `json-to-sqlite.js`): root-path record
extraction, offset/limit windowing, value resolution (mapping, defaults,
forced, dynamic templates, unique backfill), type-directed synthetic value
generation, the NOT-NULL coverage validation, the dry-run branch, and the
transactional insert loop.

Modelling notes:
* JSON values are the inductive `Json`; JavaScript numbers that the scripts
  produce are split into `num` (integers) and `real` (the rounded result of
  `(Math.random()*100).toFixed(2)`, stored in hundredths).
* Nondeterministic inputs (`Date.now()`, `crypto.randomBytes`,
  `Math.random()`, the current date) are threaded explicitly through a
  `DynCtx`/`TemplCtx` value, one per record index, mirroring the fact that
  the script samples them at each call site.
* Database reads (PRAGMA table and index info) are external inputs to the
  pipeline; per-row INSERT success is an oracle `ok : Nat → row → Bool`.
  BEGIN/COMMIT/finalize are assumed not to fail (environmental failures are
  out of scope); per-row failures are caught inside the loop in the source,
  so they never reach the surrounding catch.
-/

/-- JSON values, as manipulated by the scripts. `real h` models a
floating-point value of `h` hundredths (only produced by the synthetic
generator's floating branch). -/
inductive Json where
  | null : Json
  | bool : Bool → Json
  | num : Int → Json
  | real : Nat → Json
  | str : String → Json
  | arr : List Json → Json
  | obj : List (String × Json) → Json
deriving Repr

/-- JavaScript property access `data[segment]` for a string key: only
objects have string-keyed properties; everything else yields `undefined`
(`none`). -/
def Json.get : Json → String → Option Json
  | Json.obj fields, k => fields.lookup k
  | _, _ => none

/-- JavaScript truthiness of a JSON value. -/
def Json.truthy : Json → Bool
  | Json.null => false
  | Json.bool b => b
  | Json.num n => n != 0
  | Json.real h => h != 0
  | Json.str s => s ≠ ""
  | Json.arr _ => true
  | Json.obj _ => true

/-- `data[segment]` when an array is required: the source guard is
`!data[segment] || !Array.isArray(data[segment])`; an array is always
truthy, so the guard passes exactly when the property is an array. -/
def getArr (data : Json) (k : String) : Option (List Json) :=
  match data.get k with
  | some (Json.arr items) => some items
  | _ => none

/-- Splitting a character list at a separator character, with JavaScript
`String.prototype.split` semantics for a one-character separator: the empty
string yields `[""]`, adjacent separators yield empty pieces. -/
def splitChar (sep : Char) : List Char → List (List Char)
  | [] => [[]]
  | c :: rest =>
      if c = sep then [] :: splitChar sep rest
      else
        match splitChar sep rest with
        | [] => [[c]]
        | g :: gs => (c :: g) :: gs

/-- `path.split('.')` as strings. (Implemented over character lists so
that concrete evaluations reduce in the kernel.) -/
def splitDots (s : String) : List String :=
  (splitChar '.' s.data).map String.mk

/-- Whether a character list ends with `[]`. -/
def endsWithBrackets (cs : List Char) : Bool :=
  match cs.reverse with
  | ']' :: '[' :: _ => true
  | _ => false

/-- One root-path segment: a plain key, or a key followed by `[]`. -/
inductive Segment where
  | plain : String → Segment
  | array : String → Segment
deriving Repr, DecidableEq

/-- Segment parsing: a segment string ending in `[]` is an array segment
(`segment.endsWith('[]')`, then `segment.slice(0, -2)`). -/
def parseSegment (s : String) : Segment :=
  if endsWithBrackets s.data then
    Segment.array (String.mk (s.data.take (s.data.length - 2)))
  else Segment.plain s

/-- `rootPath.split('.')`, each segment classified. -/
def parseRootPath (rootPath : String) : List Segment :=
  (splitDots rootPath).map parseSegment

/-- The two error messages `processSegment` logs via `console.error`. -/
inductive ExtractErr where
  | missingProperty : String → ExtractErr
  | notAnArray : String → ExtractErr
deriving Repr, DecidableEq

/-- `processSegment` from `extractRootObjects` (json-to-sqlite-dynamic.js,
lines 53–90), with the `console.error` messages collected explicitly.
Both error branches return `[]` for the current subtree; an array segment
that is the last segment emits each element directly, otherwise the
recursion concatenates the results over all elements (`forEach` +
`concat`). -/
def processSegmentE : List Segment → Json → (List Json × List ExtractErr)
  | [], data => ([data], [])
  | Segment.plain k :: rest, data =>
      match data.get k with
      | none => ([], [ExtractErr.missingProperty k])
      | some v => processSegmentE rest v
  | Segment.array k :: rest, data =>
      match getArr data k with
      | none => ([], [ExtractErr.notAnArray k])
      | some items =>
          match rest with
          | [] => (items, [])
          | _ :: _ =>
              items.foldl
                (fun acc item =>
                  let r := processSegmentE rest item
                  (acc.1 ++ r.1, acc.2 ++ r.2))
                ([], [])

/-- The record list produced by segment processing (errors dropped, as the
source only logs them). -/
def processSegment (segs : List Segment) (data : Json) : List Json :=
  (processSegmentE segs data).1

/-- JavaScript `Array.prototype.slice(start, end?)` for non-negative
bounds. -/
def jsSlice (l : List Json) (start : Nat) (stop : Option Nat) : List Json :=
  match stop with
  | none => l.drop start
  | some e => (l.take e).drop start

/-- The offset/limit windowing step (lines 94–98): applied only when
`offset > 0 || limit > 0`; the slice end is `offset + limit` when
`limit > 0`, else unbounded. -/
def applyWindow (offset limit : Nat) (results : List Json) : List Json :=
  if offset > 0 || limit > 0 then
    jsSlice results offset (if limit > 0 then some (offset + limit) else none)
  else results

/-- `extractRootObjects` (lines 47–101): parse the root path, process the
segments, window the result. The pair's second component collects the
errors that the source writes to the console. -/
def extractRootObjects (offset limit : Nat) (doc : Json) (rootPath : String) :
    List Json × List ExtractErr :=
  let r := processSegmentE (parseRootPath rootPath) doc
  (applyWindow offset limit r.1, r.2)

/-- Whether `pat` is an initial run of `cs`. -/
def isPrefixOfChars : List Char → List Char → Bool
  | [], _ => true
  | _ :: _, [] => false
  | a :: as, b :: bs => a == b && isPrefixOfChars as bs

/-- Whether `pat` occurs contiguously somewhere in `cs`
(JavaScript `String.prototype.includes`). -/
def includesChars (pat : List Char) : List Char → Bool
  | [] => isPrefixOfChars pat []
  | c :: rest => isPrefixOfChars pat (c :: rest) || includesChars pat rest

/-- `s.includes(pat)`. -/
def strIncludes (s pat : String) : Bool :=
  includesChars pat.data s.data

/-- ASCII lowering, standing in for `String.prototype.toLowerCase` (the
scripts only lower ASCII type and column names). -/
def strLower (s : String) : String :=
  String.mk (s.data.map Char.toLower)

/-- ASCII raising, standing in for `String.prototype.toUpperCase`. -/
def strUpper (s : String) : String :=
  String.mk (s.data.map Char.toUpper)

/-- Replace every non-overlapping occurrence of `pat` (non-empty) in a
character list, scanning left to right — JavaScript
`value.replace(/pat/g, rep)` for a literal pattern. -/
def replaceChars (pat rep : List Char) : List Char → List Char
  | [] => []
  | c :: rest =>
      if h : isPrefixOfChars pat (c :: rest) = true ∧ pat ≠ [] then
        rep ++ replaceChars pat rep ((c :: rest).drop pat.length)
      else
        c :: replaceChars pat rep rest
termination_by l => l.length
decreasing_by
  · have hp : 0 < pat.length := List.length_pos.mpr h.2
    simp only [List.length_drop, List.length_cons]
    omega
  · simp only [List.length_cons]
    omega

/-- `s.replace(/pat/g, rep)` for a literal, non-empty pattern. -/
def strReplaceAll (s pat rep : String) : String :=
  String.mk (replaceChars pat.data rep.data s.data)

/-- The `{{DYNAMIC}}` sentinel recognized in `defaults`/`forced` rules. -/
def DYNAMIC : String := "\x7b\x7bDYNAMIC\x7d\x7d"

/-- The `{{INDEX}}` template placeholder. -/
def INDEX : String := "\x7b\x7bINDEX\x7d\x7d"

/-- The `{{UUID}}` template placeholder. -/
def UUID : String := "\x7b\x7bUUID\x7d\x7d"

/-- The `{{TIMESTAMP}}` template placeholder. -/
def TIMESTAMP : String := "\x7b\x7bTIMESTAMP\x7d\x7d"

/-- The nondeterministic environment read by `generateDynamicValue` at one
call site: `Date.now()`, `crypto.randomBytes(4).toString('hex')`, the
rounded `Math.random() * 100` draw (in hundredths), and the current date
(as days since the epoch; ISO calendar rendering is abstracted by
`isoDate`). -/
structure DynCtx where
  now : Nat
  randHex : String
  randPct : Nat
  today : Nat
deriving Repr

/-- Rendering of a day count as a date string, standing in for
`date.toISOString().split('T')[0]` (an injective rendering of the day). -/
def isoDate (d : Nat) : String :=
  "day_" ++ toString d

/-- `generateDynamicValue(type, columnName, index)` (json-to-sqlite-dynamic.js,
lines 104–155): type-directed synthetic value generation.  Branches, in
source order: integer-like; text-like split by column name into
identifier/code, email, name, title, description, and a random fallback;
floating; date/time; boolean; and a final generic fallback. -/
def generateDynamicValue (type columnName : String) (index : Nat) (ctx : DynCtx) : Json :=
  if strIncludes (strLower type) "int" then
    Json.num ((index : Int) + 1000)
  else if strIncludes (strLower type) "text" || strIncludes (strLower type) "char"
      || strIncludes (strLower type) "varchar" then
    if strIncludes (strLower columnName) "id" || strIncludes (strLower columnName) "code"
        || strIncludes (strLower columnName) "identifier" then
      Json.str (strUpper (columnName.take 3) ++ "_" ++ toString ctx.now ++ "_" ++ toString index)
    else if strIncludes (strLower columnName) "email" then
      Json.str ("user" ++ toString index ++ "@example.com")
    else if strIncludes (strLower columnName) "name" then
      Json.str ("Name_" ++ toString index)
    else if strIncludes (strLower columnName) "title" then
      Json.str ("Title " ++ toString index)
    else if strIncludes (strLower columnName) "description" then
      Json.str ("Description for item " ++ toString index)
    else
      Json.str (columnName ++ "_" ++ ctx.randHex ++ "_" ++ toString index)
  else if strIncludes (strLower type) "real" || strIncludes (strLower type) "float"
      || strIncludes (strLower type) "double" then
    Json.real ctx.randPct
  else if strIncludes (strLower type) "date" || strIncludes (strLower type) "time" then
    Json.str (isoDate (ctx.today + index))
  else if strIncludes (strLower type) "bool" then
    Json.num (if index % 2 == 0 then 1 else 0)
  else
    Json.str (columnName ++ "_" ++ toString index)

/-- A JavaScript object used as a column→value record (`mappedData`),
modelled as an association list with unique keys maintained by `rowSet`. -/
def Row : Type := List (String × Json)

/-- Property read: first binding wins (keys are kept unique). `none` is
JavaScript `undefined`. -/
def rowGet : Row → String → Option Json
  | [], _ => none
  | p :: rest, k => if p.1 == k then some p.2 else rowGet rest k

/-- Property write `row[k] = v`: replace the existing binding in place, or
append a new one (JavaScript object assignment). -/
def rowSet : Row → String → Json → Row
  | [], k, v => [(k, v)]
  | p :: rest, k, v => if p.1 == k then (k, v) :: rest else p :: rowSet rest k v

/-- The keys of a row, in insertion order (`Object.keys`). -/
def rowKeys (r : Row) : List String :=
  r.map (fun p => p.1)

/-- The source test `mappedData[col] === null || mappedData[col] === undefined`. -/
def isNullish (r : Row) (k : String) : Bool :=
  match rowGet r k with
  | none => true
  | some Json.null => true
  | some _ => false

/-- One step of `getValueByPath`'s reduce:
`(o && o[key] !== undefined) ? o[key] : null`. -/
def jsGet (o : Json) (key : String) : Json :=
  if o.truthy then
    match o.get key with
    | some v => v
    | none => Json.null
  else Json.null

/-- Folding `jsGet` along a key list (the body of `getValueByPath`). -/
def walkPath (o : Json) (keys : List String) : Json :=
  keys.foldl jsGet o

/-- `getValueByPath(obj, path)` (json-to-sqlite-dynamic.js, lines 42–44):
dot-split the path and reduce with `jsGet`; any missing key collapses the
rest of the traversal to `null`. -/
def getValueByPath (obj : Json) (path : String) : Json :=
  walkPath obj (splitDots path)

/-- Table column metadata from `PRAGMA table_info` (lines 292–298):
`defaultValue = none` models a SQL-`NULL` `dflt_value`. -/
structure ColumnInfo where
  name : String
  type : String
  notNull : Bool
  primaryKey : Bool
  defaultValue : Option String
deriving Repr, DecidableEq

/-- `tableColumns.find(col => col.name === columnName)`. -/
def findCol (cols : List ColumnInfo) (columnName : String) : Option ColumnInfo :=
  cols.find? (fun c => c.name == columnName)

/-- Whether a rule value is the literal string `{{DYNAMIC}}`
(`value === '{{DYNAMIC}}'`). -/
def isDynamicSentinel (v : Json) : Bool :=
  match v with
  | Json.str s => s == DYNAMIC
  | _ => false

/-- The value a `defaults` or `forced` rule produces for column
`columnName` at record `index`: a `{{DYNAMIC}}` sentinel triggers the
type-directed generator (falling back to `"<column>_<index>"` when the
column is not in the table), any other value is used literally.  This is
the shared shape of lines 345–357 and 362–374. -/
def dynamicOrLiteral (cols : List ColumnInfo) (columnName : String) (v : Json)
    (index : Nat) (ctx : DynCtx) : Json :=
  if isDynamicSentinel v then
    match findCol cols columnName with
    | some colInfo => generateDynamicValue colInfo.type columnName index ctx
    | none => Json.str (columnName ++ "_" ++ toString index)
  else v

/-- Mapping application (lines 339–341): for every `jsonPath → columnName`
entry, `mappedData[columnName] = getValueByPath(obj, jsonPath)`. -/
def applyMapping (mapping : List (String × String)) (obj : Json) : Row :=
  mapping.foldl (fun r p => rowSet r p.2 (getValueByPath obj p.1)) []

/-- Defaults application (lines 344–359): a rule fires only when the
current value is `null`/`undefined`. -/
def applyDefaults (cols : List ColumnInfo) (defaults : List (String × Json))
    (index : Nat) (ctx : DynCtx) (row : Row) : Row :=
  defaults.foldl
    (fun r p =>
      if isNullish r p.1 then rowSet r p.1 (dynamicOrLiteral cols p.1 p.2 index ctx)
      else r)
    row

/-- Forced application (lines 362–375): a rule always overwrites. -/
def applyForced (cols : List ColumnInfo) (forced : List (String × Json))
    (index : Nat) (ctx : DynCtx) (row : Row) : Row :=
  forced.foldl
    (fun r p => rowSet r p.1 (dynamicOrLiteral cols p.1 p.2 index ctx))
    row

/-- The nondeterministic inputs of one template substitution:
`crypto.randomUUID()` and `Date.now()`. -/
structure TemplCtx where
  uuid : String
  now : Nat
deriving Repr

/-- Dynamic template application (lines 378–395): each `includes` test is
made on the original template, each substitution on the accumulated
value. -/
def applyDynamicTemplates (dynamic : List (String × String)) (index : Nat)
    (tctx : TemplCtx) (row : Row) : Row :=
  dynamic.foldl
    (fun r p =>
      let template := p.2
      let v1 := if strIncludes template INDEX then
          strReplaceAll template INDEX (toString index) else template
      let v2 := if strIncludes template UUID then
          strReplaceAll v1 UUID tctx.uuid else v1
      let v3 := if strIncludes template TIMESTAMP then
          strReplaceAll v2 TIMESTAMP (toString tctx.now) else v2
      rowSet r p.1 (Json.str v3))
    row

/-- Constraint backfill (lines 398–409): for each UNIQUE column (name and
type as collected from the index PRAGMAs), when the table column exists,
is NOT NULL and the row value is still `null`/`undefined`, generate a
synthetic value from the unique column's recorded type. -/
def applyUniqueBackfill (cols : List ColumnInfo) (uniq : List (String × String))
    (index : Nat) (ctx : DynCtx) (row : Row) : Row :=
  uniq.foldl
    (fun r uc =>
      match findCol cols uc.1 with
      | some colInfo =>
          if colInfo.notNull && isNullish r uc.1 then
            rowSet r uc.1 (generateDynamicValue uc.2 uc.1 index ctx)
          else r
      | none => r)
    row

/-- The per-record body of the `dataToInsert` map (lines 335–412):
mapping, then defaults, then forced, then dynamic templates, then the
NOT-NULL/UNIQUE backfill. -/
def resolveRecord (cols : List ColumnInfo) (uniq : List (String × String))
    (mapping : List (String × String)) (defaults forced : List (String × Json))
    (dynamic : List (String × String)) (obj : Json) (index : Nat)
    (ctx : DynCtx) (tctx : TemplCtx) : Row :=
  applyUniqueBackfill cols uniq index ctx
    (applyDynamicTemplates dynamic index tctx
      (applyForced cols forced index ctx
        (applyDefaults cols defaults index ctx
          (applyMapping mapping obj))))

/-- The run configuration consumed by the import pipeline (the `params`
object plus the parsed mapping and defaults files). -/
structure Config where
  jsonRoot : String
  mapping : List (String × String)
  defaults : List (String × Json)
  forced : List (String × Json)
  dynamic : List (String × String)
  limit : Nat
  offset : Nat
  dryRun : Bool

/-- Deduplication preserving first occurrence (`new Set([...])` iterated
in insertion order). -/
def dedupFirst (l : List String) : List String :=
  l.foldl (fun acc x => if acc.contains x then acc else acc ++ [x]) []

/-- `columnsToInclude` (lines 436–443): the union of mapped column names
and `defaults`/`forced`/`dynamic` rule keys, restricted to columns that
exist in the table. -/
def columnsToInclude (cols : List ColumnInfo) (cfg : Config) : List String :=
  let allTableColumnNames := cols.map (fun c => c.name)
  let allMappedColumns := dedupFirst
    (cfg.mapping.map (fun p => p.2) ++ cfg.defaults.map (fun p => p.1)
      ++ cfg.forced.map (fun p => p.1) ++ cfg.dynamic.map (fun p => p.1))
  allMappedColumns.filter (fun c => allTableColumnNames.contains c)

/-- `missingRequiredColumns` (lines 446–449): NOT NULL, non-primary-key
columns not covered by the resolved column set and with no table-level
default. -/
def missingRequired (cols : List ColumnInfo) (cfg : Config) : List String :=
  let notNullColumnNames :=
    ((cols.filter (fun c => c.notNull && !c.primaryKey)).map (fun c => c.name))
  notNullColumnNames.filter (fun c =>
    !(columnsToInclude cols cfg).contains c &&
      (match findCol cols c with
       | some tc => tc.defaultValue.isNone
       | none => false))

/-- A row restricted to the resolved column set (`finalDataToInsert`,
lines 459–465): `none` is a property the resolved record did not carry
(bound as SQL NULL, like an explicit `null`). -/
def FinalRow : Type := List (String × Option Json)

/-- `result[col] = item[col]` over the included columns. -/
def projectRow (included : List String) (item : Row) : FinalRow :=
  included.map (fun c => (c, rowGet item c))

/-- The database statements a run issues, in order. `insert i row ok`
records the attempt for row `i` and whether the statement succeeded. -/
inductive DbOp where
  | begin : DbOp
  | insert : Nat → FinalRow → Bool → DbOp
  | commit : DbOp
  | rollback : DbOp

/-- The insert loop (lines 493–517): each row is attempted; a failure is
caught, counted in `errorCount`, and the loop continues with the next
row. -/
def insertLoop (ok : Nat → FinalRow → Bool) :
    List (Nat × FinalRow) → Nat → Nat → List DbOp → Nat × Nat × List DbOp
  | [], s, f, ops => (s, f, ops)
  | p :: rest, s, f, ops =>
      if ok p.1 p.2 then
        insertLoop ok rest (s + 1) f (ops ++ [DbOp.insert p.1 p.2 true])
      else
        insertLoop ok rest s (f + 1) (ops ++ [DbOp.insert p.1 p.2 false])

/-- The transactional writer (lines 475–528): `BEGIN TRANSACTION`, the
insert loop over the enumerated rows, then `COMMIT`.  Returns
`(successCount, errorCount, statements)`. -/
def runWriter (ok : Nat → FinalRow → Bool) (rows : List FinalRow) :
    Nat × Nat × List DbOp :=
  let r := insertLoop ok rows.enum 0 0 [DbOp.begin]
  (r.1, r.2.1, r.2.2 ++ [DbOp.commit])

/-- The fatal errors the import run can abort with (each a
`console.error` + `process.exit(1)` site). -/
inductive FatalErr where
  | noObjects : FatalErr
  | tableNotFound : FatalErr
  | notNullUncovered : List String → FatalErr

/-- The observable result of a run. -/
inductive Outcome where
  | fatal : FatalErr → Outcome
  | dryRunReport : Nat → List String → Outcome
  | completed : Nat → Nat → Nat → Outcome

/-- The fully resolved record list of a run (the `dataToInsert` map,
lines 335–412), one resolution context per record index. -/
def resolvedRows (cfg : Config) (doc : Json) (cols : List ColumnInfo)
    (uniq : List (String × String)) (ctxs : Nat → DynCtx) (tctxs : Nat → TemplCtx) :
    List Row :=
  ((extractRootObjects cfg.offset cfg.limit doc cfg.jsonRoot).1).enum.map
    (fun p => resolveRecord cols uniq cfg.mapping cfg.defaults cfg.forced cfg.dynamic
      p.2 p.1 (ctxs p.1) (tctxs p.1))

/-- The rows handed to the prepared statement (`finalDataToInsert`). -/
def finalRows (cfg : Config) (doc : Json) (cols : List ColumnInfo)
    (uniq : List (String × String)) (ctxs : Nat → DynCtx) (tctxs : Nat → TemplCtx) :
    List FinalRow :=
  (resolvedRows cfg doc cols uniq ctxs tctxs).map
    (projectRow (columnsToInclude cols cfg))

/-- The import pipeline of `main` (json-to-sqlite-dynamic.js), in source
order: extraction, the zero-record abort (line 247), the table-existence
check (line 280), record resolution, the dry-run early return (lines
418–425), the NOT-NULL coverage validation (lines 446–456), and the
transactional insert loop.  `cols` and `uniq` are the PRAGMA results for
the target table (empty `cols` = table absent); `ok` tells whether the
INSERT of a given row succeeds. -/
def pipeline (cfg : Config) (doc : Json) (cols : List ColumnInfo)
    (uniq : List (String × String)) (ctxs : Nat → DynCtx) (tctxs : Nat → TemplCtx)
    (ok : Nat → FinalRow → Bool) : Outcome × List DbOp :=
  let rootObjects := (extractRootObjects cfg.offset cfg.limit doc cfg.jsonRoot).1
  if rootObjects.length == 0 then (Outcome.fatal FatalErr.noObjects, [])
  else if cols.length == 0 then (Outcome.fatal FatalErr.tableNotFound, [])
  else
    let dataToInsert := resolvedRows cfg doc cols uniq ctxs tctxs
    if cfg.dryRun then
      (Outcome.dryRunReport dataToInsert.length (rowKeys (dataToInsert.headD [])), [])
    else
      let missing := missingRequired cols cfg
      if missing.length != 0 then (Outcome.fatal (FatalErr.notNullUncovered missing), [])
      else
        let fd := finalRows cfg doc cols uniq ctxs tctxs
        let w := runWriter ok fd
        (Outcome.completed fd.length w.1 w.2.1, w.2.2)

/-- Whether the constraint backfill can ever touch column `c`: some UNIQUE
entry names it and the table column exists and is NOT NULL. -/
def backfillTouches (cols : List ColumnInfo) (uniq : List (String × String))
    (c : String) : Bool :=
  uniq.any (fun uc =>
    uc.1 == c &&
      (match findCol cols uc.1 with
       | some colInfo => colInfo.notNull
       | none => false))

/-- Whether a statement list contains a `ROLLBACK`. -/
def hasRollback (ops : List DbOp) : Bool :=
  ops.any (fun op => match op with | DbOp.rollback => true | _ => false)

/-- A plain (non-array) segment. -/
def isPlainSeg : Segment → Bool
  | Segment.plain _ => true
  | Segment.array _ => false

/-- `wellSized segs sizes data`: along the root path, every plain segment
is present and every array segment resolves to an array of the size given
by the corresponding entry of `sizes`, uniformly across branches (the
hypothesis of the cross-product record count property). -/
def wellSized : List Segment → List Nat → Json → Bool
  | [], [], _ => true
  | [], _ :: _, _ => false
  | Segment.plain k :: rest, sizes, data =>
      match data.get k with
      | some v => wellSized rest sizes v
      | none => false
  | Segment.array k :: rest, n :: sizes, data =>
      match getArr data k with
      | some items =>
          items.length == n &&
            (match rest with
             | [] => sizes.isEmpty
             | _ :: _ => items.all (wellSized rest sizes))
      | none => false
  | Segment.array _ :: _, [], _ => false

section RowLemmas

theorem rowGet_rowSet_self (r : Row) (k : String) (v : Json) :
    rowGet (rowSet r k v) k = some v := by
  induction r with
  | nil => simp [rowSet, rowGet]
  | cons p rest ih =>
      by_cases h : p.1 = k
      · simp [rowSet, rowGet, h]
      · simp only [rowSet, rowGet, beq_iff_eq, h, if_false]
        exact ih

theorem rowGet_rowSet_ne (r : Row) (k c : String) (v : Json) (h : k ≠ c) :
    rowGet (rowSet r k v) c = rowGet r c := by
  induction r with
  | nil => simp [rowSet, rowGet, h]
  | cons p rest ih =>
      by_cases hp : p.1 = k
      · simp [rowSet, rowGet, hp, h]
      · simp only [rowSet, rowGet, beq_iff_eq, hp, if_false]
        by_cases hc : p.1 = c <;> simp [hc, ih]

theorem isNullish_rowSet_ne (r : Row) (k c : String) (v : Json) (h : k ≠ c) :
    isNullish (rowSet r k v) c = isNullish r c := by
  simp [isNullish, rowGet_rowSet_ne r k c v h]

theorem rowGet_rowSet_isSome (r : Row) (k c : String) (v : Json)
    (h : (rowGet r c).isSome) : (rowGet (rowSet r k v) c).isSome := by
  by_cases hk : k = c
  · subst hk; simp [rowGet_rowSet_self]
  · rwa [rowGet_rowSet_ne r k c v hk]

theorem isNullish_of_get_some (r : Row) (c : String) (v : Json)
    (hget : rowGet r c = some v) (hv : v ≠ Json.null) :
    isNullish r c = false := by
  unfold isNullish
  rw [hget]
  cases v <;> simp_all

end RowLemmas

section GeneratorLemmas

theorem generateDynamicValue_ne_null (t c : String) (idx : Nat) (ctx : DynCtx) :
    generateDynamicValue t c idx ctx ≠ Json.null := by
  unfold generateDynamicValue
  split_ifs <;> intro h <;> exact Json.noConfusion h

theorem dynamicOrLiteral_ne_null (cols : List ColumnInfo) (c : String) (v : Json)
    (idx : Nat) (ctx : DynCtx) (hv : v ≠ Json.null) :
    dynamicOrLiteral cols c v idx ctx ≠ Json.null := by
  unfold dynamicOrLiteral
  split_ifs with h
  · cases hfc : findCol cols c with
    | some ci => simp [hfc]; intro h; exact generateDynamicValue_ne_null _ _ _ _ h
    | none => simp [hfc]
  · exact hv

end GeneratorLemmas

section ResolutionLemmas

theorem applyDefaults_cons (cols : List ColumnInfo) (p : String × Json)
    (rest : List (String × Json)) (idx : Nat) (ctx : DynCtx) (row : Row) :
    applyDefaults cols (p :: rest) idx ctx row =
      applyDefaults cols rest idx ctx
        (if isNullish row p.1 then rowSet row p.1 (dynamicOrLiteral cols p.1 p.2 idx ctx)
         else row) := rfl

theorem applyForced_cons (cols : List ColumnInfo) (p : String × Json)
    (rest : List (String × Json)) (idx : Nat) (ctx : DynCtx) (row : Row) :
    applyForced cols (p :: rest) idx ctx row =
      applyForced cols rest idx ctx
        (rowSet row p.1 (dynamicOrLiteral cols p.1 p.2 idx ctx)) := rfl

theorem applyDefaults_get_notmem (cols : List ColumnInfo)
    (defaults : List (String × Json)) (idx : Nat) (ctx : DynCtx) (row : Row)
    (c : String) :
    c ∉ defaults.map (fun p => p.1) →
    rowGet (applyDefaults cols defaults idx ctx row) c = rowGet row c := by
  induction defaults generalizing row with
  | nil => intro _; rfl
  | cons p rest ih =>
      intro h
      simp only [List.map_cons, List.mem_cons, not_or] at h
      rw [applyDefaults_cons]
      by_cases hn : isNullish row p.1 = true
      · simp only [hn, if_true]
        rw [ih _ h.2, rowGet_rowSet_ne _ _ _ _ (Ne.symm h.1)]
      · simp only [hn, if_false]
        exact ih _ h.2

theorem applyDefaults_get_mem (cols : List ColumnInfo)
    (defaults : List (String × Json)) (idx : Nat) (ctx : DynCtx) (row : Row)
    (c : String) (dv : Json) :
    (c, dv) ∈ defaults → (defaults.map (fun p => p.1)).Nodup →
    rowGet (applyDefaults cols defaults idx ctx row) c =
      (if isNullish row c then some (dynamicOrLiteral cols c dv idx ctx)
       else rowGet row c) := by
  induction defaults generalizing row with
  | nil => intro h; exact absurd h (List.not_mem_nil _)
  | cons p rest ih =>
      intro hmem hnd
      simp only [List.map_cons, List.nodup_cons] at hnd
      rcases List.mem_cons.mp hmem with heq | htail
      · subst heq
        rw [applyDefaults_cons]
        have hnotin : c ∉ rest.map (fun p => p.1) := hnd.1
        by_cases hn : isNullish row c = true
        · simp only [hn, if_true]
          rw [applyDefaults_get_notmem _ _ _ _ _ _ hnotin, rowGet_rowSet_self]
        · simp only [hn, if_false]
          exact applyDefaults_get_notmem _ _ _ _ _ _ hnotin
      · have hne : p.1 ≠ c := by
          intro hc
          exact hnd.1 (hc ▸ (List.mem_map.mpr ⟨(c, dv), htail, rfl⟩))
        rw [applyDefaults_cons]
        by_cases hn : isNullish row p.1 = true
        · simp only [hn, if_true]
          rw [ih _ htail hnd.2, isNullish_rowSet_ne _ _ _ _ hne,
            rowGet_rowSet_ne _ _ _ _ hne]
        · simp only [hn, if_false]
          exact ih _ htail hnd.2

theorem applyForced_get_notmem (cols : List ColumnInfo)
    (forced : List (String × Json)) (idx : Nat) (ctx : DynCtx) (row : Row)
    (c : String) :
    c ∉ forced.map (fun p => p.1) →
    rowGet (applyForced cols forced idx ctx row) c = rowGet row c := by
  induction forced generalizing row with
  | nil => intro _; rfl
  | cons p rest ih =>
      intro h
      simp only [List.map_cons, List.mem_cons, not_or] at h
      rw [applyForced_cons, ih _ h.2, rowGet_rowSet_ne _ _ _ _ (Ne.symm h.1)]

theorem applyForced_get_mem (cols : List ColumnInfo)
    (forced : List (String × Json)) (idx : Nat) (ctx : DynCtx) (row : Row)
    (c : String) (fv : Json) :
    (c, fv) ∈ forced → (forced.map (fun p => p.1)).Nodup →
    rowGet (applyForced cols forced idx ctx row) c =
      some (dynamicOrLiteral cols c fv idx ctx) := by
  induction forced generalizing row with
  | nil => intro h; exact absurd h (List.not_mem_nil _)
  | cons p rest ih =>
      intro hmem hnd
      simp only [List.map_cons, List.nodup_cons] at hnd
      rcases List.mem_cons.mp hmem with heq | htail
      · subst heq
        rw [applyForced_cons, applyForced_get_notmem _ _ _ _ _ _ hnd.1,
          rowGet_rowSet_self]
      · rw [applyForced_cons]
        exact ih _ htail hnd.2

theorem applyDynamicTemplates_get_notmem (dynamic : List (String × String))
    (idx : Nat) (tctx : TemplCtx) (row : Row) (c : String) :
    c ∉ dynamic.map (fun p => p.1) →
    rowGet (applyDynamicTemplates dynamic idx tctx row) c = rowGet row c := by
  induction dynamic generalizing row with
  | nil => intro _; rfl
  | cons p rest ih =>
      intro h
      simp only [List.map_cons, List.mem_cons, not_or] at h
      show rowGet (applyDynamicTemplates rest idx tctx (rowSet row p.1 _)) c = _
      rw [ih _ h.2, rowGet_rowSet_ne _ _ _ _ (Ne.symm h.1)]

theorem applyUniqueBackfill_get_safe (cols : List ColumnInfo)
    (uniq : List (String × String)) (idx : Nat) (ctx : DynCtx) (row : Row)
    (c : String) :
    isNullish row c = false ∨ backfillTouches cols uniq c = false →
    rowGet (applyUniqueBackfill cols uniq idx ctx row) c = rowGet row c := by
  induction uniq generalizing row with
  | nil => intro _; rfl
  | cons uc rest ih =>
      intro h
      have hstep : applyUniqueBackfill cols (uc :: rest) idx ctx row =
          applyUniqueBackfill cols rest idx ctx
            (match findCol cols uc.1 with
             | some colInfo =>
                 if colInfo.notNull && isNullish row uc.1 then
                   rowSet row uc.1 (generateDynamicValue uc.2 uc.1 idx ctx)
                 else row
             | none => row) := rfl
      rw [hstep]
      rcases h with hnull | htouch
      · by_cases hc : uc.1 = c
        · subst hc
          cases hfc : findCol cols uc.1 with
          | some ci =>
              simp only [hfc, hnull, Bool.and_false]
              exact ih _ (Or.inl hnull)
          | none => simp only [hfc]; exact ih _ (Or.inl hnull)
        · cases hfc : findCol cols uc.1 with
          | some ci =>
              by_cases hg : (ci.notNull && isNullish row uc.1) = true
              · simp only [hfc, hg, if_true]
                rw [ih _ (Or.inl (by rwa [isNullish_rowSet_ne _ _ _ _ hc])),
                  rowGet_rowSet_ne _ _ _ _ hc]
              · simp only [hfc, hg, if_false]
                exact ih _ (Or.inl hnull)
          | none => simp only [hfc]; exact ih _ (Or.inl hnull)
      · have htail : backfillTouches cols rest c = false := by
          simp only [backfillTouches, List.any_cons, Bool.or_eq_false_iff] at htouch
          exact htouch.2
        have hhead : (uc.1 == c &&
            (match findCol cols uc.1 with
             | some colInfo => colInfo.notNull
             | none => false)) = false := by
          simp only [backfillTouches, List.any_cons, Bool.or_eq_false_iff] at htouch
          exact htouch.1
        by_cases hc : uc.1 = c
        · subst hc
          cases hfc : findCol cols uc.1 with
          | some ci =>
              have hci : ci.notNull = false := by
                simp only [hfc, beq_self_eq_true, Bool.true_and] at hhead
                exact hhead
              simp only [hfc, hci, Bool.false_and, if_false]
              exact ih _ (Or.inr htail)
          | none => simp only [hfc]; exact ih _ (Or.inr htail)
        · cases hfc : findCol cols uc.1 with
          | some ci =>
              by_cases hg : (ci.notNull && isNullish row uc.1) = true
              · simp only [hfc, hg, if_true]
                rw [ih _ (Or.inr htail), rowGet_rowSet_ne _ _ _ _ hc]
              · simp only [hfc, hg, if_false]
                exact ih _ (Or.inr htail)
          | none => simp only [hfc]; exact ih _ (Or.inr htail)

end ResolutionLemmas

section WriterLemmas

theorem insertLoop_fst (ok : Nat → FinalRow → Bool) :
    ∀ (l : List (Nat × FinalRow)) (s f : Nat) (ops : List DbOp),
      (insertLoop ok l s f ops).1 = s + l.countP (fun p => ok p.1 p.2) := by
  intro l
  induction l with
  | nil => intro s f ops; simp [insertLoop]
  | cons p rest ih =>
      intro s f ops
      cases hp : ok p.1 p.2 with
      | true =>
          simp only [insertLoop, hp, if_true]
          rw [ih]
          simp [List.countP_cons, hp]
          omega
      | false =>
          simp only [insertLoop, hp, Bool.false_eq_true, if_false]
          rw [ih]
          simp [List.countP_cons, hp]

theorem insertLoop_failed (ok : Nat → FinalRow → Bool) :
    ∀ (l : List (Nat × FinalRow)) (s f : Nat) (ops : List DbOp),
      (insertLoop ok l s f ops).2.1 = f + l.countP (fun p => !(ok p.1 p.2)) := by
  intro l
  induction l with
  | nil => intro s f ops; simp [insertLoop]
  | cons p rest ih =>
      intro s f ops
      cases hp : ok p.1 p.2 with
      | true =>
          simp only [insertLoop, hp, if_true]
          rw [ih]
          simp [List.countP_cons, hp]
      | false =>
          simp only [insertLoop, hp, Bool.false_eq_true, if_false]
          rw [ih]
          simp [List.countP_cons, hp]
          omega

theorem insertLoop_ops (ok : Nat → FinalRow → Bool) :
    ∀ (l : List (Nat × FinalRow)) (s f : Nat) (ops : List DbOp),
      (insertLoop ok l s f ops).2.2 =
        ops ++ l.map (fun p => DbOp.insert p.1 p.2 (ok p.1 p.2)) := by
  intro l
  induction l with
  | nil => intro s f ops; simp [insertLoop]
  | cons p rest ih =>
      intro s f ops
      cases hp : ok p.1 p.2 with
      | true =>
          simp only [insertLoop, hp, if_true]
          rw [ih]
          simp [hp]
      | false =>
          simp only [insertLoop, hp, Bool.false_eq_true, if_false]
          rw [ih]
          simp [hp]

theorem runWriter_succ (ok : Nat → FinalRow → Bool) (rows : List FinalRow) :
    (runWriter ok rows).1 = rows.enum.countP (fun p => ok p.1 p.2) := by
  simp [runWriter, insertLoop_fst]

theorem runWriter_failed (ok : Nat → FinalRow → Bool) (rows : List FinalRow) :
    (runWriter ok rows).2.1 = rows.enum.countP (fun p => !(ok p.1 p.2)) := by
  simp [runWriter, insertLoop_failed]

theorem runWriter_ops (ok : Nat → FinalRow → Bool) (rows : List FinalRow) :
    (runWriter ok rows).2.2 =
      [DbOp.begin] ++ rows.enum.map (fun p => DbOp.insert p.1 p.2 (ok p.1 p.2))
        ++ [DbOp.commit] := by
  simp [runWriter, insertLoop_ops]

theorem hasRollback_writer (ok : Nat → FinalRow → Bool) (rows : List FinalRow) :
    hasRollback (runWriter ok rows).2.2 = false := by
  rw [runWriter_ops]
  simp only [hasRollback, List.any_append, List.any_cons, List.any_nil,
    Bool.false_or, Bool.or_false, List.any_map, Function.comp, List.any_eq_false]
  intro p hp
  rcases List.mem_map.mp hp with ⟨q, _, hq⟩
  subst hq
  simp

end WriterLemmas

section PipelineLemmas

theorem resolvedRows_length (cfg : Config) (doc : Json) (cols : List ColumnInfo)
    (uniq : List (String × String)) (ctxs : Nat → DynCtx) (tctxs : Nat → TemplCtx) :
    (resolvedRows cfg doc cols uniq ctxs tctxs).length =
      (extractRootObjects cfg.offset cfg.limit doc cfg.jsonRoot).1.length := by
  simp [resolvedRows]

theorem finalRows_length (cfg : Config) (doc : Json) (cols : List ColumnInfo)
    (uniq : List (String × String)) (ctxs : Nat → DynCtx) (tctxs : Nat → TemplCtx) :
    (finalRows cfg doc cols uniq ctxs tctxs).length =
      (extractRootObjects cfg.offset cfg.limit doc cfg.jsonRoot).1.length := by
  simp [finalRows, resolvedRows_length]

theorem pipeline_empty_extraction (cfg : Config) (doc : Json)
    (cols : List ColumnInfo) (uniq : List (String × String)) (ctxs : Nat → DynCtx)
    (tctxs : Nat → TemplCtx) (ok : Nat → FinalRow → Bool)
    (h : (extractRootObjects cfg.offset cfg.limit doc cfg.jsonRoot).1 = []) :
    pipeline cfg doc cols uniq ctxs tctxs ok = (Outcome.fatal FatalErr.noObjects, []) := by
  simp [pipeline, h]

theorem pipeline_completed_inv (cfg : Config) (doc : Json)
    (cols : List ColumnInfo) (uniq : List (String × String)) (ctxs : Nat → DynCtx)
    (tctxs : Nat → TemplCtx) (ok : Nat → FinalRow → Bool) (t s f : Nat)
    (h : (pipeline cfg doc cols uniq ctxs tctxs ok).1 = Outcome.completed t s f) :
    t = (finalRows cfg doc cols uniq ctxs tctxs).length ∧
    s = (runWriter ok (finalRows cfg doc cols uniq ctxs tctxs)).1 ∧
    f = (runWriter ok (finalRows cfg doc cols uniq ctxs tctxs)).2.1 ∧
    (pipeline cfg doc cols uniq ctxs tctxs ok).2 =
      (runWriter ok (finalRows cfg doc cols uniq ctxs tctxs)).2.2 ∧
    (extractRootObjects cfg.offset cfg.limit doc cfg.jsonRoot).1.length ≠ 0 := by
  simp only [pipeline] at h ⊢
  split_ifs at h ⊢ with h1 h2 h3 h4
  simp only [Outcome.completed.injEq] at h
  simp only [beq_iff_eq] at h1
  exact ⟨h.1.symm, h.2.1.symm, h.2.2.symm, rfl, h1⟩

end PipelineLemmas

theorem pipeline_dryRunReport_inv (cfg : Config) (doc : Json)
    (cols : List ColumnInfo) (uniq : List (String × String)) (ctxs : Nat → DynCtx)
    (tctxs : Nat → TemplCtx) (ok : Nat → FinalRow → Bool) (n : Nat) (csx : List String)
    (h : (pipeline cfg doc cols uniq ctxs tctxs ok).1 = Outcome.dryRunReport n csx) :
    n = (resolvedRows cfg doc cols uniq ctxs tctxs).length ∧
    (extractRootObjects cfg.offset cfg.limit doc cfg.jsonRoot).1.length ≠ 0 := by
  simp only [pipeline] at h
  split_ifs at h with h1 h2 h3 h4
  simp only [Outcome.dryRunReport.injEq] at h
  simp only [beq_iff_eq] at h1
  exact ⟨h.1.symm, h1⟩

section CountingLemmas

theorem sum_map_const {α : Type} (f : α → Nat) (k : Nat) :
    ∀ (l : List α), (∀ x ∈ l, f x = k) → (l.map f).sum = l.length * k := by
  intro l
  induction l with
  | nil => intro _; simp
  | cons x rest ih =>
      intro h
      simp only [List.map_cons, List.sum_cons, List.length_cons]
      rw [h x (List.mem_cons_self _ _), ih (fun y hy => h y (List.mem_cons_of_mem _ hy))]
      ring

theorem extract_foldl_fst_length (rest : List Segment) (items : List Json) :
    ∀ (acc : List Json × List ExtractErr),
      ((items.foldl
        (fun acc item =>
          let r := processSegmentE rest item
          (acc.1 ++ r.1, acc.2 ++ r.2))
        acc).1).length =
        acc.1.length + (items.map (fun item => (processSegmentE rest item).1.length)).sum := by
  induction items with
  | nil => intro acc; simp
  | cons x xs ih =>
      intro acc
      simp only [List.foldl_cons, List.map_cons, List.sum_cons]
      rw [ih]
      simp only [List.length_append]
      omega

theorem wellSized_count :
    ∀ (segs : List Segment) (sizes : List Nat) (data : Json),
      wellSized segs sizes data = true →
      (processSegmentE segs data).1.length = sizes.prod := by
  intro segs
  induction segs with
  | nil =>
      intro sizes data h
      cases sizes with
      | nil => simp [processSegmentE]
      | cons n rest => exact Bool.noConfusion h
  | cons seg rest ih =>
      intro sizes data h
      cases seg with
      | plain k =>
          cases hg : data.get k with
          | none => rw [wellSized, hg] at h; exact Bool.noConfusion h
          | some v =>
              rw [wellSized, hg] at h
              rw [show processSegmentE (Segment.plain k :: rest) data =
                processSegmentE rest v by rw [processSegmentE, hg]]
              exact ih sizes v h
      | array k =>
          cases sizes with
          | nil => exact Bool.noConfusion h
          | cons n sizes =>
              cases hg : getArr data k with
              | none => rw [wellSized, hg] at h; exact Bool.noConfusion h
              | some items =>
                  rw [wellSized, hg] at h
                  rw [Bool.and_eq_true] at h
                  have hlen : items.length = n := by
                    have := h.1
                    simpa using this
                  cases rest with
                  | nil =>
                      have hempty : sizes = [] := by
                        have := h.2
                        simpa using this
                      subst hempty
                      rw [show processSegmentE [Segment.array k] data = (items, []) by
                        rw [processSegmentE, hg]]
                      simp [hlen]
                  | cons r rs =>
                      have hall : ∀ item ∈ items, wellSized (r :: rs) sizes item = true := by
                        have := h.2
                        rw [List.all_eq_true] at this
                        exact fun item hi => this item hi
                      rw [show processSegmentE (Segment.array k :: r :: rs) data =
                          items.foldl
                            (fun acc item =>
                              let q := processSegmentE (r :: rs) item
                              (acc.1 ++ q.1, acc.2 ++ q.2))
                            ([], []) by
                        rw [processSegmentE, hg]]
                      rw [extract_foldl_fst_length]
                      rw [sum_map_const (fun item => (processSegmentE (r :: rs) item).1.length)
                        sizes.prod items (fun item hi => ih sizes item (hall item hi))]
                      simp [List.prod_cons, hlen, Nat.mul_comm]

theorem wellSized_all_plain :
    ∀ (segs : List Segment) (sizes : List Nat) (data : Json),
      segs.all isPlainSeg = true → wellSized segs sizes data = true → sizes = [] := by
  intro segs
  induction segs with
  | nil =>
      intro sizes data _ h
      cases sizes with
      | nil => rfl
      | cons n rest => exact Bool.noConfusion h
  | cons seg rest ih =>
      intro sizes data hall h
      cases seg with
      | plain k =>
          cases hg : data.get k with
          | none => rw [wellSized, hg] at h; exact Bool.noConfusion h
          | some v =>
              rw [wellSized, hg] at h
              simp only [List.all_cons, Bool.and_eq_true] at hall
              exact ih sizes v hall.2 h
      | array k =>
          simp only [List.all_cons, isPlainSeg, Bool.false_and] at hall
          exact Bool.noConfusion hall

end CountingLemmas

section Fixtures

/-- A fixed nondeterministic environment for concrete evaluations. -/
def ctx0 : DynCtx := ⟨5, "ab", 42, 7⟩

/-- A second environment differing from `ctx0` (different clock draw). -/
def ctxA : DynCtx := ⟨1, "ab", 42, 7⟩

/-- A third environment differing from `ctxA` only in the clock. -/
def ctxB : DynCtx := ⟨2, "ab", 42, 7⟩

/-- A fixed template environment. -/
def tctx0 : TemplCtx := ⟨"uu", 9⟩

/-- Constant per-record environments. -/
def ctxs0 : Nat → DynCtx := fun _ => ctx0

/-- Constant per-record template environments. -/
def tctxs0 : Nat → TemplCtx := fun _ => tctx0

/-- An oracle under which every INSERT succeeds. -/
def okAll : Nat → FinalRow → Bool := fun _ _ => true

/-- An oracle under which exactly the INSERT of row 1 fails. -/
def okNot1 : Nat → FinalRow → Bool := fun i _ => i != 1

/-- `{"data":{"users":[{"a":1},{"profile":{"x":2}}]}}`: the first user has
no `profile`, the second does. -/
def docUsers : Json :=
  Json.obj [("data", Json.obj [("users", Json.arr
    [Json.obj [("a", Json.num 1)],
     Json.obj [("profile", Json.obj [("x", Json.num 2)])]])])]

/-- `{"data":{"regions":[{"cities":[10,20]},{"cities":[30,40]}]}}`. -/
def docRegions : Json :=
  Json.obj [("data", Json.obj [("regions", Json.arr
    [Json.obj [("cities", Json.arr [Json.num 10, Json.num 20])],
     Json.obj [("cities", Json.arr [Json.num 30, Json.num 40])]])])]

/-- `{"items":[{"a":"v"}]}`. -/
def docItems1 : Json :=
  Json.obj [("items", Json.arr [Json.obj [("a", Json.str "v")]])]

/-- `{"items":[{"a":"v"},{"a":"w"},{"a":"z"}]}`. -/
def docItems3 : Json :=
  Json.obj [("items", Json.arr
    [Json.obj [("a", Json.str "v")], Json.obj [("a", Json.str "w")],
     Json.obj [("a", Json.str "z")]])]

/-- A table with a nullable `a` and a NOT NULL, non-defaulted `b`. -/
def colsAB : List ColumnInfo :=
  [⟨"a", "TEXT", false, false, none⟩, ⟨"b", "TEXT", true, false, none⟩]

/-- A table with a single nullable column `a`. -/
def colsA : List ColumnInfo :=
  [⟨"a", "TEXT", false, false, none⟩]

/-- A table with a single NOT NULL integer column `u`. -/
def colsU : List ColumnInfo :=
  [⟨"u", "INTEGER", true, false, none⟩]

/-- Dry-run configuration mapping only `a`, leaving `b` uncovered. -/
def cfgDryAB : Config :=
  ⟨"items[]", [("a", "a")], [], [], [], 0, 0, true⟩

/-- Non-dry configuration mapping `a` over `items[]`. -/
def cfgLiveA : Config :=
  ⟨"items[]", [("a", "a")], [], [], [], 0, 0, false⟩

/-- Non-dry configuration over `data.users[].profile` mapping `x` to `a`. -/
def cfgProfile : Config :=
  ⟨"data.users[].profile", [("x", "a")], [], [], [], 0, 0, false⟩

/-- Non-dry configuration whose root path names an absent property. -/
def cfgMissing : Config :=
  ⟨"missing[]", [("a", "a")], [], [], [], 0, 0, false⟩

end Fixtures

/-- C5: the offset/limit windowing step of `extractRootObjects` has
standard slice semantics: with `limit > 0` it keeps
`records[offset : offset + limit]`, with `limit = 0` it keeps
`records[offset:]`; in particular `offset = 0, limit = 0` is the
identity (the second conjunct is the `limit = 0, offset = 0` reading of
the first). -/
theorem c5_window_slice_semantics (offset limit : Nat) (doc : Json) (rootPath : String) :
    (extractRootObjects offset limit doc rootPath).1 =
      (if 0 < limit then
         List.take limit (List.drop offset (processSegment (parseRootPath rootPath) doc))
       else List.drop offset (processSegment (parseRootPath rootPath) doc)) ∧
    (extractRootObjects 0 0 doc rootPath).1 =
      processSegment (parseRootPath rootPath) doc := by
  constructor
  · simp only [extractRootObjects, applyWindow, jsSlice, processSegment]
    cases limit with
    | zero =>
        simp only [Nat.lt_irrefl, if_false, decide_eq_true_eq]
        by_cases ho : offset > 0
        · simp [ho]
        · have h0 : offset = 0 := by omega
          simp [h0]
    | succ n =>
        have hl : 0 < n + 1 := Nat.succ_pos n
        have hd : (decide (offset > 0) || decide (n + 1 > 0)) = true := by simp
        simp [hd, hl, List.drop_take, Nat.add_sub_cancel_left]
  · simp [extractRootObjects, applyWindow, processSegment]

/-- C6: when every plain segment of the root path is present and its `k`
array segments all resolve to arrays of sizes `n1..nk` (uniformly across
branches — the `wellSized` hypothesis), the raw record count before
offset/limit equals `n1 * n2 * ... * nk`, and equals 1 when the path has
no array segment. -/
theorem c6_cross_product_count (segs : List Segment) (sizes : List Nat) (data : Json)
    (h : wellSized segs sizes data = true) :
    (processSegment segs data).length = sizes.prod ∧
    (segs.all isPlainSeg = true → (processSegment segs data).length = 1) := by
  refine ⟨wellSized_count segs sizes data h, fun hp => ?_⟩
  have hz := wellSized_all_plain segs sizes data hp h
  subst hz
  simpa using wellSized_count segs [] data h

/-- Witness for C6 at a concrete two-by-two nested document. -/
theorem c6_witness :
    (processSegment (parseRootPath "data.regions[].cities[]") docRegions).length
      = ([2, 2] : List Nat).prod :=
  (c6_cross_product_count (parseRootPath "data.regions[].cities[]") [2, 2] docRegions rfl).1

theorem walkPath_null : ∀ (keys : List String), walkPath Json.null keys = Json.null := by
  intro keys
  induction keys with
  | nil => rfl
  | cons k ks ih =>
      show walkPath (jsGet Json.null k) ks = Json.null
      rw [show jsGet Json.null k = Json.null from rfl]
      exact ih

theorem applyMapping_covers (obj : Json) (jsonPath c : String) :
    ∀ (mapping : List (String × String)),
      (jsonPath, c) ∈ mapping →
      ∃ v, rowGet (applyMapping mapping obj) c = some v := by
  suffices h : ∀ (l : List (String × String)) (r : Row),
      ((jsonPath, c) ∈ l ∨ ∃ v, rowGet r c = some v) →
      ∃ v, rowGet (l.foldl (fun r p => rowSet r p.2 (getValueByPath obj p.1)) r) c = some v by
    intro mapping hm
    exact h mapping [] (Or.inl hm)
  intro l
  induction l with
  | nil =>
      intro r h
      rcases h with h | h
      · exact absurd h (List.not_mem_nil _)
      · exact h
  | cons p rest ih =>
      intro r h
      simp only [List.foldl_cons]
      apply ih
      rcases h with hmem | ⟨v, hv⟩
      · rcases List.mem_cons.mp hmem with heq | htail
        · right
          refine ⟨getValueByPath obj p.1, ?_⟩
          have hc : p.2 = c := by rw [← heq]
          rw [hc]
          exact rowGet_rowSet_self _ _ _
        · left; exact htail
      · right
        by_cases hk : p.2 = c
        · rw [hk]
          exact ⟨_, rowGet_rowSet_self _ _ _⟩
        · exact ⟨v, by rw [rowGet_rowSet_ne _ _ _ _ hk, hv]⟩

/-- C9: mapped-value lookup is a dot-separated relative traversal in
which a missing intermediate or final key makes the whole lookup `null`
instead of failing (first conjunct: if the walk reaches a value without
property `k`, the complete walk returns `null`; second conjunct:
`getValueByPath` is exactly this walk over the dot-split path), and row
resolution always succeeds: every mapped column is present in the
resolved row (with `null` standing in for absent data), so record
processing is never aborted by an absent mapped path. -/
theorem c9_missing_path_yields_null :
    (∀ (obj : Json) (keysA : List String) (k : String) (keysB : List String),
      (walkPath obj keysA).get k = none →
      walkPath obj (keysA ++ k :: keysB) = Json.null) ∧
    (∀ (obj : Json) (path : String),
      getValueByPath obj path = walkPath obj (splitDots path)) ∧
    (∀ (mapping : List (String × String)) (obj : Json) (jsonPath c : String),
      (jsonPath, c) ∈ mapping →
      ∃ v, rowGet (applyMapping mapping obj) c = some v) := by
  refine ⟨?_, fun obj path => rfl, fun mapping obj jsonPath c hm =>
    applyMapping_covers obj jsonPath c mapping hm⟩
  intro obj keysA k keysB hget
  show (keysA ++ k :: keysB).foldl jsGet obj = Json.null
  rw [List.foldl_append]
  show walkPath (jsGet (walkPath obj keysA) k) keysB = Json.null
  have hk : jsGet (walkPath obj keysA) k = Json.null := by
    unfold jsGet
    rw [hget]
    split_ifs <;> rfl
  rw [hk]
  exact walkPath_null keysB

/-- Witness for C9: a missing nested key under `{"a":{"b":3}}` resolves
to `null`, and the mapped column is still present in the resolved row. -/
theorem c9_witness :
    getValueByPath (Json.obj [("a", Json.obj [("b", Json.num 3)])]) "a.c.d" = Json.null ∧
    ∃ v, rowGet (applyMapping [("a.c.d", "col")]
      (Json.obj [("a", Json.obj [("b", Json.num 3)])])) "col" = some v := by
  constructor
  · exact c9_missing_path_yields_null.1
      (Json.obj [("a", Json.obj [("b", Json.num 3)])]) ["a"] "c" ["d"] rfl
  · exact c9_missing_path_yields_null.2.2 [("a.c.d", "col")]
      (Json.obj [("a", Json.obj [("b", Json.num 3)])]) "a.c.d" "col"
      (List.mem_cons_self _ _)

/-- C10: a root-path expansion that comes out empty is fatal for every
run, dry or not: the pipeline returns the 'no objects found' error and
issues no database statements; consequently a completed run and a
dry-run report always carry a positive record count. -/
theorem c10_zero_records_fatal :
    (∀ (cfg : Config) (doc : Json) (cols : List ColumnInfo)
        (uniq : List (String × String)) (ctxs : Nat → DynCtx)
        (tctxs : Nat → TemplCtx) (ok : Nat → FinalRow → Bool),
      (extractRootObjects cfg.offset cfg.limit doc cfg.jsonRoot).1 = [] →
      pipeline cfg doc cols uniq ctxs tctxs ok = (Outcome.fatal FatalErr.noObjects, [])) ∧
    (∀ (cfg : Config) (doc : Json) (cols : List ColumnInfo)
        (uniq : List (String × String)) (ctxs : Nat → DynCtx)
        (tctxs : Nat → TemplCtx) (ok : Nat → FinalRow → Bool) (t s f : Nat),
      (pipeline cfg doc cols uniq ctxs tctxs ok).1 = Outcome.completed t s f → 0 < t) ∧
    (∀ (cfg : Config) (doc : Json) (cols : List ColumnInfo)
        (uniq : List (String × String)) (ctxs : Nat → DynCtx)
        (tctxs : Nat → TemplCtx) (ok : Nat → FinalRow → Bool) (n : Nat)
        (csx : List String),
      (pipeline cfg doc cols uniq ctxs tctxs ok).1 = Outcome.dryRunReport n csx → 0 < n) := by
  refine ⟨fun cfg doc cols uniq ctxs tctxs ok h =>
      pipeline_empty_extraction cfg doc cols uniq ctxs tctxs ok h, ?_, ?_⟩
  · intro cfg doc cols uniq ctxs tctxs ok t s f h
    obtain ⟨ht, _, _, _, hne⟩ := pipeline_completed_inv cfg doc cols uniq ctxs tctxs ok t s f h
    rw [ht, finalRows_length]
    exact Nat.pos_of_ne_zero hne
  · intro cfg doc cols uniq ctxs tctxs ok n csx h
    obtain ⟨hn, hne⟩ := pipeline_dryRunReport_inv cfg doc cols uniq ctxs tctxs ok n csx h
    rw [hn, resolvedRows_length]
    exact Nat.pos_of_ne_zero hne

/-- Witness for C10: a root path whose first property is absent expands
to nothing and the run is fatal with no statements issued. -/
theorem c10_witness :
    pipeline cfgMissing docItems1 colsA [] ctxs0 tctxs0 okAll
      = (Outcome.fatal FatalErr.noObjects, []) :=
  c10_zero_records_fatal.1 cfgMissing docItems1 colsA [] ctxs0 tctxs0 okAll rfl

/-- Counterexample to C1 as stated: with dry run enabled and the NOT
NULL, non-defaulted column `b` absent from the resolved column set
(`missingRequired` names it), the run does not surface the NOT-NULL
coverage error — it returns the dry-run report. -/
theorem c1_counterexample :
    missingRequired colsAB cfgDryAB = ["b"] ∧
    pipeline cfgDryAB docItems1 colsAB [] ctxs0 tctxs0 okAll
      = (Outcome.dryRunReport 1 ["a"], []) ∧
    (pipeline cfgDryAB docItems1 colsAB [] ctxs0 tctxs0 okAll).1
      ≠ Outcome.fatal (FatalErr.notNullUncovered ["b"]) := by
  refine ⟨rfl, rfl, ?_⟩
  intro h
  rw [show (pipeline cfgDryAB docItems1 colsAB [] ctxs0 tctxs0 okAll).1
      = Outcome.dryRunReport 1 ["a"] from rfl] at h
  exact Outcome.noConfusion h

/-- C1 (amended): with dry run enabled the pipeline extracts, applies the
zero-record and table-existence checks, resolves every record, and then
returns the dry-run report **before** the NOT-NULL coverage validation,
the transaction and any statement execution: it issues no database
statements, and its outcome is one of the two pre-resolution fatal
errors or the dry-run report — never the 'NOT-NULL column with no
covering rule' error and never a completed write. -/
theorem c1_dry_run_skips_notnull_validation (cfg : Config) (doc : Json)
    (cols : List ColumnInfo) (uniq : List (String × String)) (ctxs : Nat → DynCtx)
    (tctxs : Nat → TemplCtx) (ok : Nat → FinalRow → Bool)
    (hdry : cfg.dryRun = true) :
    (pipeline cfg doc cols uniq ctxs tctxs ok).2 = [] ∧
    ((pipeline cfg doc cols uniq ctxs tctxs ok).1 = Outcome.fatal FatalErr.noObjects ∨
     (pipeline cfg doc cols uniq ctxs tctxs ok).1 = Outcome.fatal FatalErr.tableNotFound ∨
     (pipeline cfg doc cols uniq ctxs tctxs ok).1 =
       Outcome.dryRunReport (resolvedRows cfg doc cols uniq ctxs tctxs).length
         (rowKeys ((resolvedRows cfg doc cols uniq ctxs tctxs).headD []))) := by
  simp only [pipeline, hdry, if_true]
  split_ifs with h1 h2
  · exact ⟨rfl, Or.inl rfl⟩
  · exact ⟨rfl, Or.inr (Or.inl rfl)⟩
  · exact ⟨rfl, Or.inr (Or.inr rfl)⟩

/-- Witness for the amended C1 at a concrete dry run. -/
theorem c1_witness :
    (pipeline cfgDryAB docItems1 colsAB [] ctxs0 tctxs0 okAll).2 = [] ∧
    ((pipeline cfgDryAB docItems1 colsAB [] ctxs0 tctxs0 okAll).1
        = Outcome.fatal FatalErr.noObjects ∨
     (pipeline cfgDryAB docItems1 colsAB [] ctxs0 tctxs0 okAll).1
        = Outcome.fatal FatalErr.tableNotFound ∨
     (pipeline cfgDryAB docItems1 colsAB [] ctxs0 tctxs0 okAll).1 =
       Outcome.dryRunReport
         (resolvedRows cfgDryAB docItems1 colsAB [] ctxs0 tctxs0).length
         (rowKeys ((resolvedRows cfgDryAB docItems1 colsAB [] ctxs0 tctxs0).headD []))) :=
  c1_dry_run_skips_notnull_validation cfgDryAB docItems1 colsAB [] ctxs0 tctxs0 okAll rfl

/-- C2: whenever a run completes (reaches the insert loop), the failed
count is exactly the number of rows whose INSERT failed, the success
count the number that succeeded, together they exhaust the attempted
rows; the statement trace contains no ROLLBACK, starts with BEGIN and
ends with COMMIT, and every row whose INSERT succeeded — wherever it
sits relative to failed rows — has its successful INSERT in the
committed trace. -/
theorem c2_per_row_failure_isolated_commit (cfg : Config) (doc : Json)
    (cols : List ColumnInfo) (uniq : List (String × String)) (ctxs : Nat → DynCtx)
    (tctxs : Nat → TemplCtx) (ok : Nat → FinalRow → Bool) (t s f : Nat)
    (h : (pipeline cfg doc cols uniq ctxs tctxs ok).1 = Outcome.completed t s f) :
    t = (finalRows cfg doc cols uniq ctxs tctxs).length ∧
    s = (finalRows cfg doc cols uniq ctxs tctxs).enum.countP (fun p => ok p.1 p.2) ∧
    f = (finalRows cfg doc cols uniq ctxs tctxs).enum.countP (fun p => !(ok p.1 p.2)) ∧
    s + f = t ∧
    hasRollback (pipeline cfg doc cols uniq ctxs tctxs ok).2 = false ∧
    (pipeline cfg doc cols uniq ctxs tctxs ok).2.getLast? = some DbOp.commit ∧
    (pipeline cfg doc cols uniq ctxs tctxs ok).2.head? = some DbOp.begin ∧
    (∀ p ∈ (finalRows cfg doc cols uniq ctxs tctxs).enum, ok p.1 p.2 = true →
      DbOp.insert p.1 p.2 true ∈ (pipeline cfg doc cols uniq ctxs tctxs ok).2) := by
  obtain ⟨ht, hs, hf, hops, _⟩ := pipeline_completed_inv cfg doc cols uniq ctxs tctxs ok t s f h
  set fd := finalRows cfg doc cols uniq ctxs tctxs with hfd
  refine ⟨ht, ?_, ?_, ?_, ?_, ?_, ?_, ?_⟩
  · rw [hs, runWriter_succ]
  · rw [hf, runWriter_failed]
  · rw [hs, hf, ht, runWriter_succ, runWriter_failed]
    have hcc : fd.enum.countP (fun p => !(ok p.1 p.2))
        = fd.enum.countP (fun a => decide ¬(ok a.1 a.2 = true)) := by
      apply List.countP_congr
      intro a _
      cases hoa : ok a.1 a.2 <;> simp [hoa]
    rw [hcc]
    have := List.length_eq_countP_add_countP (fun p : Nat × FinalRow => ok p.1 p.2) fd.enum
    simp only [List.enum_length] at this
    omega
  · rw [hops]
    exact hasRollback_writer ok fd
  · rw [hops, runWriter_ops]
    rw [List.getLast?_concat]
  · rw [hops, runWriter_ops]
    rfl
  · intro p hp hok
    rw [hops, runWriter_ops]
    simp only [List.mem_append, List.mem_map]
    exact Or.inl (Or.inr ⟨p, hp, by rw [hok]⟩)

/-- Witness for C2: a concrete run of three rows where the INSERT of row
1 fails commits with `succeeded = 2`, `failed = 1`, and the successful
first row's INSERT is in the trace. -/
theorem c2_witness :
    hasRollback (pipeline cfgLiveA docItems3 colsA [] ctxs0 tctxs0 okNot1).2 = false ∧
    (pipeline cfgLiveA docItems3 colsA [] ctxs0 tctxs0 okNot1).2.getLast?
      = some DbOp.commit ∧
    DbOp.insert 0 [("a", some (Json.str "v"))] true
      ∈ (pipeline cfgLiveA docItems3 colsA [] ctxs0 tctxs0 okNot1).2 := by
  have h := c2_per_row_failure_isolated_commit cfgLiveA docItems3 colsA [] ctxs0 tctxs0
    okNot1 3 2 1 rfl
  refine ⟨h.2.2.2.2.1, h.2.2.2.2.2.1, ?_⟩
  refine h.2.2.2.2.2.2.2 (0, [("a", some (Json.str "v"))]) ?_ rfl
  exact List.mem_cons_self _ _

/-- Counterexample to C3 as stated: in `{"data":{"users":[{"a":1},
{"profile":{"x":2}}]}}` with root `data.users[].profile`, the first
user's missing `profile` produces the 'missing property' error, yet the
run does not abort with zero rows attempted — the sibling element's
record is extracted and the run completes with one row attempted. -/
theorem c3_counterexample :
    (extractRootObjects 0 0 docUsers "data.users[].profile").2
      = [ExtractErr.missingProperty "profile"] ∧
    (pipeline cfgProfile docUsers colsA [] ctxs0 tctxs0 okAll).1
      = Outcome.completed 1 1 0 := by
  exact ⟨rfl, rfl⟩

/-- C3 (amended): a missing plain segment or a non-array value at an
array segment makes that branch of the expansion contribute zero records
together with the corresponding logged error (first two conjuncts); the
run aborts — a single terminal 'no objects found' error with zero rows
attempted and no statements issued — exactly when the whole expansion is
empty (third and fourth conjuncts).  A failure nested under an array
element therefore only drops that element's subtree, and the run
continues with records from sibling elements. -/
theorem c3_segment_errors_local_abort_on_empty :
    (∀ (k : String) (rest : List Segment) (data : Json),
      data.get k = none →
      processSegmentE (Segment.plain k :: rest) data
        = ([], [ExtractErr.missingProperty k])) ∧
    (∀ (k : String) (rest : List Segment) (data : Json),
      getArr data k = none →
      processSegmentE (Segment.array k :: rest) data
        = ([], [ExtractErr.notAnArray k])) ∧
    (∀ (cfg : Config) (doc : Json) (cols : List ColumnInfo)
        (uniq : List (String × String)) (ctxs : Nat → DynCtx)
        (tctxs : Nat → TemplCtx) (ok : Nat → FinalRow → Bool),
      (extractRootObjects cfg.offset cfg.limit doc cfg.jsonRoot).1 = [] →
      pipeline cfg doc cols uniq ctxs tctxs ok
        = (Outcome.fatal FatalErr.noObjects, [])) ∧
    (∀ (cfg : Config) (doc : Json) (cols : List ColumnInfo)
        (uniq : List (String × String)) (ctxs : Nat → DynCtx)
        (tctxs : Nat → TemplCtx) (ok : Nat → FinalRow → Bool),
      (extractRootObjects cfg.offset cfg.limit doc cfg.jsonRoot).1 ≠ [] →
      (pipeline cfg doc cols uniq ctxs tctxs ok).1 ≠ Outcome.fatal FatalErr.noObjects) := by
  refine ⟨?_, ?_, ?_, ?_⟩
  · intro k rest data h
    rw [processSegmentE, h]
  · intro k rest data h
    rw [processSegmentE, h]
  · intro cfg doc cols uniq ctxs tctxs ok h
    exact pipeline_empty_extraction cfg doc cols uniq ctxs tctxs ok h
  · intro cfg doc cols uniq ctxs tctxs ok h
    simp only [pipeline]
    split_ifs with h1 h2 h3 h4
    · exact absurd (List.length_eq_zero.mp (by simpa using h1)) h
    · intro hc; exact FatalErr.noConfusion (Outcome.fatal.inj hc)
    · intro hc; exact Outcome.noConfusion hc
    · intro hc; exact FatalErr.noConfusion (Outcome.fatal.inj hc)
    · intro hc; exact Outcome.noConfusion hc

/-- Witness for the amended C3 at concrete inputs. -/
theorem c3_witness :
    processSegmentE [Segment.plain "profile"] (Json.obj [("a", Json.num 1)])
      = ([], [ExtractErr.missingProperty "profile"]) ∧
    pipeline cfgMissing docItems1 colsAB [] ctxs0 tctxs0 okAll
      = (Outcome.fatal FatalErr.noObjects, []) :=
  ⟨c3_segment_errors_local_abort_on_empty.1 "profile" [] (Json.obj [("a", Json.num 1)]) rfl,
   c3_segment_errors_local_abort_on_empty.2.2.1 cfgMissing docItems1 colsAB [] ctxs0 tctxs0
     okAll rfl⟩

/-- Counterexample to C4 as stated: with forced rule `u ↦ null` on the
NOT NULL, UNIQUE integer column `u`, the final value is the synthetic
`1000 + 0`, not the forced rule's result `null`. -/
theorem c4_counterexample :
    rowGet (resolveRecord colsU [("u", "INTEGER")] [] [] [("u", Json.null)] []
        (Json.obj []) 0 ctx0 tctx0) "u" = some (Json.num 1000) ∧
    dynamicOrLiteral colsU "u" Json.null 0 ctx0 = Json.null ∧
    Json.num 1000 ≠ Json.null := by
  refine ⟨rfl, rfl, ?_⟩
  intro h
  exact Json.noConfusion h

/-- C4 (amended): a column with a `defaults` rule receives the rule's
result iff its mapped value is null or absent, a non-null mapped value
being kept (first conjunct); a column with a `forced` rule and no
dynamic rule ends up equal to the forced rule's result — unless that
result is `null` and the column is NOT NULL and UNIQUE, in which case
the constraint backfill overwrites it with a synthetic value (second
conjunct, guarded by the disjunction hypothesis). -/
theorem c4_defaults_iff_null_forced_final (cols : List ColumnInfo)
    (uniq : List (String × String)) (mapping : List (String × String))
    (defaults forced : List (String × Json)) (dynamic : List (String × String))
    (obj : Json) (idx : Nat) (ctx : DynCtx) (tctx : TemplCtx) (c : String)
    (dv fv : Json) :
    ((c, dv) ∈ defaults → (defaults.map (fun p => p.1)).Nodup →
      rowGet (applyDefaults cols defaults idx ctx (applyMapping mapping obj)) c =
        (if isNullish (applyMapping mapping obj) c
         then some (dynamicOrLiteral cols c dv idx ctx)
         else rowGet (applyMapping mapping obj) c)) ∧
    ((c, fv) ∈ forced → (forced.map (fun p => p.1)).Nodup →
      c ∉ dynamic.map (fun p => p.1) →
      (fv ≠ Json.null ∨ backfillTouches cols uniq c = false) →
      rowGet (resolveRecord cols uniq mapping defaults forced dynamic obj idx ctx tctx) c =
        some (dynamicOrLiteral cols c fv idx ctx)) := by
  constructor
  · intro hmem hnd
    exact applyDefaults_get_mem cols defaults idx ctx (applyMapping mapping obj) c dv hmem hnd
  · intro hmem hnd hdyn hsafe
    unfold resolveRecord
    have hforced := applyForced_get_mem cols forced idx ctx
      (applyDefaults cols defaults idx ctx (applyMapping mapping obj)) c fv hmem hnd
    have hval : rowGet (applyDynamicTemplates dynamic idx tctx
        (applyForced cols forced idx ctx
          (applyDefaults cols defaults idx ctx (applyMapping mapping obj)))) c =
        some (dynamicOrLiteral cols c fv idx ctx) := by
      rw [applyDynamicTemplates_get_notmem _ _ _ _ _ hdyn, hforced]
    rcases hsafe with hfv | htouch
    · have hnn : isNullish (applyDynamicTemplates dynamic idx tctx
          (applyForced cols forced idx ctx
            (applyDefaults cols defaults idx ctx (applyMapping mapping obj)))) c = false :=
        isNullish_of_get_some _ _ _ hval (dynamicOrLiteral_ne_null cols c fv idx ctx hfv)
      rw [applyUniqueBackfill_get_safe _ _ _ _ _ _ (Or.inl hnn), hval]
    · rw [applyUniqueBackfill_get_safe _ _ _ _ _ _ (Or.inr htouch), hval]

/-- Witness for the amended C4: a default fires on a null-mapped column,
and a non-null forced value survives to the final row. -/
theorem c4_witness :
    rowGet (applyDefaults colsA [("a", Json.str "unknown")] 0 ctx0
        (applyMapping [("a", "a")] (Json.obj [("a", Json.null)]))) "a" =
      (if isNullish (applyMapping [("a", "a")] (Json.obj [("a", Json.null)])) "a"
       then some (dynamicOrLiteral colsA "a" (Json.str "unknown") 0 ctx0)
       else rowGet (applyMapping [("a", "a")] (Json.obj [("a", Json.null)])) "a") ∧
    rowGet (resolveRecord colsU [("u", "INTEGER")] [] [] [("u", Json.num 7)] []
        (Json.obj []) 0 ctx0 tctx0) "u" =
      some (dynamicOrLiteral colsU "u" (Json.num 7) 0 ctx0) := by
  constructor
  · exact (c4_defaults_iff_null_forced_final colsA [] [("a", "a")]
      [("a", Json.str "unknown")] [] [] (Json.obj [("a", Json.null)]) 0 ctx0 tctx0 "a"
      (Json.str "unknown") Json.null).1 (List.mem_cons_self _ _) (by simp)
  · exact (c4_defaults_iff_null_forced_final colsU [("u", "INTEGER")] [] []
      [("u", Json.num 7)] [] (Json.obj []) 0 ctx0 tctx0 "u" Json.null (Json.num 7)).2
      (List.mem_cons_self _ _) (by simp) (List.not_mem_nil _)
      (Or.inl (fun h => Json.noConfusion h))

/-- `type.toLowerCase().includes('int')`. -/
def intLike (t : String) : Bool := strIncludes (strLower t) "int"

/-- The text-type guard of `generateDynamicValue`. -/
def textLike (t : String) : Bool :=
  strIncludes (strLower t) "text" || strIncludes (strLower t) "char"
    || strIncludes (strLower t) "varchar"

/-- The identifier/code column-name guard. -/
def idNameLike (c : String) : Bool :=
  strIncludes (strLower c) "id" || strIncludes (strLower c) "code"
    || strIncludes (strLower c) "identifier"

/-- The email column-name guard. -/
def emailNameLike (c : String) : Bool := strIncludes (strLower c) "email"

/-- The name column-name guard. -/
def nameNameLike (c : String) : Bool := strIncludes (strLower c) "name"

/-- The title column-name guard. -/
def titleNameLike (c : String) : Bool := strIncludes (strLower c) "title"

/-- The description column-name guard. -/
def descriptionNameLike (c : String) : Bool := strIncludes (strLower c) "description"

/-- The floating-type guard. -/
def floatLike (t : String) : Bool :=
  strIncludes (strLower t) "real" || strIncludes (strLower t) "float"
    || strIncludes (strLower t) "double"

/-- The date/time-type guard. -/
def dateLike (t : String) : Bool :=
  strIncludes (strLower t) "date" || strIncludes (strLower t) "time"

/-- The boolean-type guard. -/
def boolLike (t : String) : Bool := strIncludes (strLower t) "bool"

/-- Counterexample to C7 as stated: `generateDynamicValue` for a `TEXT`
column named `name` (which matches none of the identifier/code or email
guards) returns the dedicated `"Name_<index>"` value, not the claimed
`"<column>_<random>_<index>"` fallback; C7 omits the name, title and
description branches. -/
theorem c7_counterexample :
    generateDynamicValue "TEXT" "name" 0 ctx0 = Json.str "Name_0" ∧
    idNameLike "name" = false ∧ emailNameLike "name" = false ∧
    ("Name_0" : String) ≠ "name" ++ "_" ++ ctx0.randHex ++ "_" ++ toString (0 : Nat) := by
  exact ⟨rfl, rfl, rfl, by decide⟩

/-- C7 (amended): the full branch map of the type-directed generator, in
source order: integer-like types give `1000 + index`; text-like types
split by column name into identifier/code (`"<PREFIX3>_<now>_<index>"`),
email (`"user<index>@example.com"`), name (`"Name_<index>"`), title
(`"Title <index>"`), description (`"Description for item <index>"`), and
otherwise the random fallback `"<column>_<random>_<index>"`; floating
types give the random draw (rounded to hundredths, hence in `[0,100)`);
date/time types give the current date advanced by `index` days; boolean
types alternate `1`/`0` by parity of `index`; unrecognized types give
`"<column>_<index>"`. -/
theorem c7_generator_branch_map (t c : String) (idx : Nat) (ctx : DynCtx) :
    (intLike t = true →
      generateDynamicValue t c idx ctx = Json.num ((idx : Int) + 1000)) ∧
    (intLike t = false → textLike t = true → idNameLike c = true →
      generateDynamicValue t c idx ctx =
        Json.str (strUpper (c.take 3) ++ "_" ++ toString ctx.now ++ "_" ++ toString idx)) ∧
    (intLike t = false → textLike t = true → idNameLike c = false →
      emailNameLike c = true →
      generateDynamicValue t c idx ctx =
        Json.str ("user" ++ toString idx ++ "@example.com")) ∧
    (intLike t = false → textLike t = true → idNameLike c = false →
      emailNameLike c = false → nameNameLike c = true →
      generateDynamicValue t c idx ctx = Json.str ("Name_" ++ toString idx)) ∧
    (intLike t = false → textLike t = true → idNameLike c = false →
      emailNameLike c = false → nameNameLike c = false → titleNameLike c = true →
      generateDynamicValue t c idx ctx = Json.str ("Title " ++ toString idx)) ∧
    (intLike t = false → textLike t = true → idNameLike c = false →
      emailNameLike c = false → nameNameLike c = false → titleNameLike c = false →
      descriptionNameLike c = true →
      generateDynamicValue t c idx ctx =
        Json.str ("Description for item " ++ toString idx)) ∧
    (intLike t = false → textLike t = true → idNameLike c = false →
      emailNameLike c = false → nameNameLike c = false → titleNameLike c = false →
      descriptionNameLike c = false →
      generateDynamicValue t c idx ctx =
        Json.str (c ++ "_" ++ ctx.randHex ++ "_" ++ toString idx)) ∧
    (intLike t = false → textLike t = false → floatLike t = true →
      generateDynamicValue t c idx ctx = Json.real ctx.randPct) ∧
    (intLike t = false → textLike t = false → floatLike t = false →
      dateLike t = true →
      generateDynamicValue t c idx ctx = Json.str (isoDate (ctx.today + idx))) ∧
    (intLike t = false → textLike t = false → floatLike t = false →
      dateLike t = false → boolLike t = true →
      generateDynamicValue t c idx ctx =
        Json.num (if idx % 2 == 0 then 1 else 0)) ∧
    (intLike t = false → textLike t = false → floatLike t = false →
      dateLike t = false → boolLike t = false →
      generateDynamicValue t c idx ctx = Json.str (c ++ "_" ++ toString idx)) := by
  refine ⟨?_, ?_, ?_, ?_, ?_, ?_, ?_, ?_, ?_, ?_, ?_⟩ <;>
  · intros
    simp only [intLike, textLike, idNameLike, emailNameLike, nameNameLike,
      titleNameLike, descriptionNameLike, floatLike, dateLike, boolLike] at *
    simp [generateDynamicValue, *]

/-- Witness for the amended C7 across three concrete branches. -/
theorem c7_witness :
    generateDynamicValue "INTEGER" "u" 3 ctx0 = Json.num 1003 ∧
    generateDynamicValue "TEXT" "name" 0 ctx0 = Json.str ("Name_" ++ toString (0 : Nat)) ∧
    generateDynamicValue "DATETIME" "d" 3 ctx0 = Json.str (isoDate (ctx0.today + 3)) := by
  refine ⟨?_, ?_, ?_⟩
  · exact (c7_generator_branch_map "INTEGER" "u" 3 ctx0).1 rfl
  · exact (c7_generator_branch_map "TEXT" "name" 0 ctx0).2.2.2.1 rfl rfl rfl rfl rfl
  · exact (c7_generator_branch_map "DATETIME" "d" 3 ctx0).2.2.2.2.2.2.2.2.1 rfl rfl rfl rfl

/-- Which dispatch branch of `generateDynamicValue` reads no
nondeterministic input (clock, random bytes, random float, current
date): the integer, email, name, title, description, boolean and
fallback branches are environment-free; the identifier/code branch reads
the clock, the other-text branch reads random bytes, the floating branch
reads the random draw, and the date/time branch reads the current
date. -/
def deterministicBranch (t c : String) : Bool :=
  if strIncludes (strLower t) "int" then true
  else if strIncludes (strLower t) "text" || strIncludes (strLower t) "char"
      || strIncludes (strLower t) "varchar" then
    if strIncludes (strLower c) "id" || strIncludes (strLower c) "code"
        || strIncludes (strLower c) "identifier" then false
    else if strIncludes (strLower c) "email" then true
    else if strIncludes (strLower c) "name" then true
    else if strIncludes (strLower c) "title" then true
    else if strIncludes (strLower c) "description" then true
    else false
  else if strIncludes (strLower t) "real" || strIncludes (strLower t) "float"
      || strIncludes (strLower t) "double" then false
  else if strIncludes (strLower t) "date" || strIncludes (strLower t) "time" then false
  else if strIncludes (strLower t) "bool" then true
  else true

/-- Counterexample to C8 as stated: the identifier/code branch — which is
neither the `{{UUID}}` path (absent from the generator) nor the
random-float path — reads the clock, so two invocations at the same
`(type, column, index)` triple differ. -/
theorem c8_counterexample :
    generateDynamicValue "TEXT" "id" 0 ctxA = Json.str "ID_1_0" ∧
    generateDynamicValue "TEXT" "id" 0 ctxB = Json.str "ID_2_0" ∧
    floatLike "TEXT" = false ∧
    ("ID_1_0" : String) ≠ "ID_2_0" := by
  exact ⟨rfl, rfl, rfl, by decide⟩

/-- C8 (amended): synthetic `{{DYNAMIC}}` generation is deterministic in
the `(declared type, column name, index)` triple exactly on the
environment-free branches — integer, email, name, title, description,
boolean and fallback; besides the random-float path (and the `{{UUID}}`
path, which lives in the template substitution, not in the generator),
the identifier/code branch (clock), the other-text branch (random bytes)
and the date/time branch (current date) are also not deterministic. -/
theorem c8_deterministic_on_env_free_branches (t c : String) (idx : Nat)
    (ctx ctx' : DynCtx) (h : deterministicBranch t c = true) :
    generateDynamicValue t c idx ctx = generateDynamicValue t c idx ctx' := by
  unfold deterministicBranch at h
  unfold generateDynamicValue
  split_ifs at h ⊢ <;> rfl

/-- Witness for the amended C8 on the integer branch with two distinct
environments. -/
theorem c8_witness :
    generateDynamicValue "INTEGER" "u" 5 ctxA = generateDynamicValue "INTEGER" "u" 5 ctxB :=
  c8_deterministic_on_env_free_branches "INTEGER" "u" 5 ctxA ctxB rfl
